import Mathlib

/-!
Verification development for mozc's `converter/candidate_filter.cc`.

The filter classifies conversion candidates as GOOD_CANDIDATE (accept),
BAD_CANDIDATE (reject) or STOP_ENUMERATION.  We embed the C++ code
shallowly: the mutable members `seen_` (a `std::set<string>`) and
`top_candidate_` (a possibly-NULL pointer) become a `State` record,
`FilterCandidateInternal` / `FilterCandidate` become pure functions from
state and candidate to verdict and new state.  The external collaborators
(`Util::CharsLen`, `POSMatcher`) are parameters of the model (`Env`).

Signed 32-bit `int` additions in the source are modelled modulo `2^32`
via `wrap32` (two's-complement wrap-around), which matters because the
code adds `INT_MAX` to a cost.
-/

/-- One lattice node composing a candidate (only `lid`/`rid` are read). -/
structure Node where
  lid : Nat
  rid : Nat
deriving DecidableEq, Repr

/-- A conversion candidate: the fields of `Segment::Candidate` read by the
filter.  `context_sensitive` models the
`learning_type & CONTEXT_SENSITIVE` bit test. -/
structure Candidate where
  value : String
  cost : Int
  structure_cost : Int
  lid : Nat
  rid : Nat
  nodes : List Node
  context_sensitive : Bool
deriving DecidableEq, Repr

/-- External collaborators: the Unicode-aware character length utility and
the part-of-speech lookup (a predicate for the noun-prefix category and
the two personal-name connection ids). -/
structure Env where
  charsLen : String → Nat
  isNounPfx : Nat → Bool
  lastNameId : Nat
  firstNameId : Nat

/-- Mutable members of `CandidateFilter`: `top_candidate_` (NULL modelled
as `none`) and `seen_` (modelled as a duplicate-free list). -/
structure State where
  top : Option Candidate
  seen : List String
deriving DecidableEq, Repr

/-- `CandidateFilter::ResultType`. -/
inductive ResultType where
  | GOOD_CANDIDATE
  | BAD_CANDIDATE
  | STOP_ENUMERATION
deriving DecidableEq, Repr

open ResultType

/-- Two's-complement wrap-around of a signed 32-bit addition result. -/
def wrap32 (x : Int) : Int :=
  (x + 2147483648) % 4294967296 - 2147483648

/-- `std::set<string>::insert`: adds the value unless already present. -/
def insertSeen (v : String) (l : List String) : List String :=
  if v ∈ l then l else v :: l

/-- State after `CandidateFilter::Reset` (also the freshly constructed
engine: `seen_` empty, `top_candidate_ = NULL`). -/
def resetState : State := ⟨none, []⟩

/-- The verdict chain of `CandidateFilter::FilterCandidateInternal` after
the context-sensitive early return and the conditional assignment of
`top_candidate_`: a pure function of the (already established) top
candidate, the `seen_` contents and the candidate, translated branch by
branch from the source.  Integer additions on `int`-typed costs are
wrapped with `wrap32`; `candidate_size` is `seen_.size()`. -/
def classifyVerdict (env : Env) (top : Candidate) (seen : List String)
    (c : Candidate) : ResultType :=
  let candidate_size := seen.length
  if candidate_size + 1 ≥ 200 then STOP_ENUMERATION
  else if c.value ∈ seen then BAD_CANDIDATE
  else if c.nodes.length = 1 then GOOD_CANDIDATE
  else if env.charsLen c.value = 1 then GOOD_CANDIDATE
  else
    let top_cost := max 100 top.cost
    let top_structure_cost := max 100 top.structure_cost
    if candidate_size < 3 ∧ c.cost < wrap32 (top_cost + 2302) ∧
        c.structure_cost < 6907 then
      GOOD_CANDIDATE
    else if 3 ≤ candidate_size ∧ 1 < c.nodes.length ∧
        (c.nodes.getD 0 ⟨0, 0⟩).lid = (c.nodes.getD 0 ⟨0, 0⟩).rid ∧
        env.isNounPfx (c.nodes.getD 0 ⟨0, 0⟩).lid = true then
      BAD_CANDIDATE
    else
      let cost_offset : Int :=
        if c.lid = env.lastNameId ∨ c.lid = env.firstNameId then
          2147483647
        else 6907
      if wrap32 (top_cost + cost_offset) < c.cost ∧
          wrap32 (top_structure_cost + 1151) < c.structure_cost then
        if candidate_size < 15 then BAD_CANDIDATE
        else STOP_ENUMERATION
      else if wrap32 (top_structure_cost + 3453) < c.structure_cost then
        BAD_CANDIDATE
      else GOOD_CANDIDATE

/-- `CandidateFilter::FilterCandidateInternal`: context-sensitive
candidates are accepted immediately; otherwise `top_candidate_` is
(re)assigned when it is NULL or `seen_.size() == 0`, and the verdict
chain `classifyVerdict` runs against it. -/
def filterCandidateInternal (env : Env) (s : State) (c : Candidate) :
    ResultType × State :=
  if c.context_sensitive then (GOOD_CANDIDATE, s)
  else
    let top : Candidate :=
      if s.top = none ∨ s.seen.length = 0 then c else s.top.getD c
    (classifyVerdict env top s.seen c, { s with top := some top })

/-- `CandidateFilter::FilterCandidate`: runs the internal classification
and records the surface text in `seen_` exactly when the verdict is
GOOD_CANDIDATE. -/
def filterCandidate (env : Env) (s : State) (c : Candidate) :
    ResultType × State :=
  let r := filterCandidateInternal env s c
  if r.1 = GOOD_CANDIDATE then
    (r.1, { r.2 with seen := insertSeen c.value r.2.seen })
  else r

/-- State after feeding a whole list of candidates. -/
def runState (env : Env) : State → List Candidate → State
  | s, [] => s
  | s, c :: cs => runState env (filterCandidate env s c).2 cs

/-- Surface texts of the calls that returned GOOD_CANDIDATE, in order
(one entry per accepting call, so its length is the number of Accept
verdicts). -/
def acceptedVals (env : Env) : State → List Candidate → List String
  | _, [] => []
  | s, c :: cs =>
    if (filterCandidate env s c).1 = GOOD_CANDIDATE then
      c.value :: acceptedVals env (filterCandidate env s c).2 cs
    else
      acceptedVals env (filterCandidate env s c).2 cs

/-- Variant of `classifyVerdict` in which every element access into
`nodes` goes through the fallible `getElem?` and an out-of-bounds access
surfaces as `none`; used to prove the absence of out-of-bounds reads. -/
def classifyVerdictChecked (env : Env) (top : Candidate) (seen : List String)
    (c : Candidate) : Option ResultType :=
  let candidate_size := seen.length
  if candidate_size + 1 ≥ 200 then some STOP_ENUMERATION
  else if c.value ∈ seen then some BAD_CANDIDATE
  else if c.nodes.length = 1 then some GOOD_CANDIDATE
  else if env.charsLen c.value = 1 then some GOOD_CANDIDATE
  else
    let top_cost := max 100 top.cost
    let top_structure_cost := max 100 top.structure_cost
    let ruleNine : Option ResultType :=
      let cost_offset : Int :=
        if c.lid = env.lastNameId ∨ c.lid = env.firstNameId then
          2147483647
        else 6907
      if wrap32 (top_cost + cost_offset) < c.cost ∧
          wrap32 (top_structure_cost + 1151) < c.structure_cost then
        if candidate_size < 15 then some BAD_CANDIDATE
        else some STOP_ENUMERATION
      else if wrap32 (top_structure_cost + 3453) < c.structure_cost then
        some BAD_CANDIDATE
      else some GOOD_CANDIDATE
    if candidate_size < 3 ∧ c.cost < wrap32 (top_cost + 2302) ∧
        c.structure_cost < 6907 then
      some GOOD_CANDIDATE
    else if 3 ≤ candidate_size ∧ 1 < c.nodes.length then
      match c.nodes[0]? with
      | none => none
      | some n0 =>
        if n0.lid = n0.rid ∧ env.isNounPfx n0.lid = true then
          some BAD_CANDIDATE
        else ruleNine
    else ruleNine

/-- `filterCandidateInternal` with all `nodes` accesses checked. -/
def filterCandidateInternalChecked (env : Env) (s : State) (c : Candidate) :
    Option (ResultType × State) :=
  if c.context_sensitive then some (GOOD_CANDIDATE, s)
  else
    let top : Candidate :=
      if s.top = none ∨ s.seen.length = 0 then c else s.top.getD c
    (classifyVerdictChecked env top s.seen c).map
      (fun r => (r, { s with top := some top }))

/-- A concrete instantiation of the external collaborators, used for
concrete evaluations: byte length as character length, no noun-prefix
ids, 5 and 6 as the personal-name connection ids. -/
def env0 : Env := ⟨String.length, fun _ => false, 5, 6⟩

/-! ### Basic lemmas about the embedded operations -/

theorem wrap32_eq_self {x : Int} (h1 : -2147483648 ≤ x) (h2 : x < 2147483648) :
    wrap32 x = x := by
  unfold wrap32; omega

theorem wrap32_sub_of_high {x : Int} (h1 : 2147483648 ≤ x)
    (h2 : x < 6442450944) : wrap32 x = x - 4294967296 := by
  unfold wrap32; omega

theorem wrap32_le {x : Int} (h : -2147483648 ≤ x) : wrap32 x ≤ x := by
  unfold wrap32; omega

theorem mem_insertSeen_self (v : String) (l : List String) :
    v ∈ insertSeen v l := by
  unfold insertSeen
  split
  · assumption
  · exact List.mem_cons_self v l

theorem subset_insertSeen (v : String) (l : List String) :
    l ⊆ insertSeen v l := by
  unfold insertSeen
  split
  · exact fun _ h => h
  · exact fun _ h => List.mem_cons_of_mem _ h

theorem insertSeen_toFinset (v : String) (l : List String) :
    (insertSeen v l).toFinset = insert v l.toFinset := by
  unfold insertSeen
  split
  · next h => exact (Finset.insert_eq_self.mpr (List.mem_toFinset.mpr h)).symm
  · exact List.toFinset_cons

theorem insertSeen_nodup {v : String} {l : List String} (h : l.Nodup) :
    (insertSeen v l).Nodup := by
  unfold insertSeen
  split
  · exact h
  · next hv => exact List.nodup_cons.mpr ⟨hv, h⟩

/-- The internal classification never touches `seen_`. -/
theorem internal_seen (env : Env) (s : State) (c : Candidate) :
    (filterCandidateInternal env s c).2.seen = s.seen := by
  unfold filterCandidateInternal
  split <;> rfl

/-- The outer filter returns the internal verdict unchanged. -/
theorem fc_verdict (env : Env) (s : State) (c : Candidate) :
    (filterCandidate env s c).1 = (filterCandidateInternal env s c).1 := by
  unfold filterCandidate
  dsimp only
  split <;> rfl

/-- On an accepting call the only change to `seen_` is the insertion of
the candidate's surface text. -/
theorem fc_seen_good (env : Env) (s : State) (c : Candidate)
    (h : (filterCandidate env s c).1 = GOOD_CANDIDATE) :
    (filterCandidate env s c).2.seen = insertSeen c.value s.seen := by
  rw [fc_verdict] at h
  unfold filterCandidate
  rw [if_pos h]
  simp [internal_seen]

/-- On a rejecting or stopping call `seen_` is unchanged. -/
theorem fc_seen_not_good (env : Env) (s : State) (c : Candidate)
    (h : (filterCandidate env s c).1 ≠ GOOD_CANDIDATE) :
    (filterCandidate env s c).2.seen = s.seen := by
  rw [fc_verdict] at h
  unfold filterCandidate
  rw [if_neg h]
  exact internal_seen env s c

/-- `seen_` only grows across a call. -/
theorem fc_seen_mono (env : Env) (s : State) (c : Candidate) :
    s.seen ⊆ (filterCandidate env s c).2.seen := by
  by_cases h : (filterCandidate env s c).1 = GOOD_CANDIDATE
  · rw [fc_seen_good env s c h]
    exact subset_insertSeen _ _
  · rw [fc_seen_not_good env s c h]
    exact fun _ h => h

/-- The outer filter passes the internal state's top candidate through. -/
theorem fc_top_eq (env : Env) (s : State) (c : Candidate) :
    (filterCandidate env s c).2.top = (filterCandidateInternal env s c).2.top := by
  unfold filterCandidate
  dsimp only
  split <;> rfl

/-- Once `top_candidate_` is set and something has been accepted, a call
does not reassign it. -/
theorem internal_top_keep (env : Env) (s : State) (c : Candidate)
    (t : Candidate) (h1 : s.top = some t) (h2 : s.seen ≠ []) :
    (filterCandidateInternal env s c).2.top = some t := by
  have hlen : s.seen.length ≠ 0 := fun h => h2 (List.length_eq_zero.mp h)
  unfold filterCandidateInternal
  split
  · exact h1
  · dsimp only
    rw [h1]
    rw [if_neg (by simp [hlen])]
    rfl

/-- A non-context-sensitive call with `top_candidate_` NULL sets it to
the current candidate. -/
theorem internal_top_set (env : Env) (s : State) (c : Candidate)
    (h1 : s.top = none) (h2 : c.context_sensitive = false) :
    (filterCandidateInternal env s c).2.top = some c := by
  unfold filterCandidateInternal
  rw [if_neg (by simp [h2])]
  simp only [if_pos (Or.inl h1)]

/-- A context-sensitive candidate is accepted immediately and only its
surface text is recorded. -/
theorem fc_cs (env : Env) (s : State) (c : Candidate)
    (h : c.context_sensitive = true) :
    filterCandidate env s c =
      (GOOD_CANDIDATE, { s with seen := insertSeen c.value s.seen }) := by
  unfold filterCandidate filterCandidateInternal
  rw [if_pos h]
  rfl

/-! ### Lemmas about whole runs -/

theorem runState_append (env : Env) (l1 l2 : List Candidate) :
    ∀ s, runState env s (l1 ++ l2) = runState env (runState env s l1) l2 := by
  induction l1 with
  | nil => intro s; rfl
  | cons c cs ih => intro s; simpa [runState] using ih _

theorem run_seen_mono (env : Env) (cs : List Candidate) :
    ∀ s, s.seen ⊆ (runState env s cs).seen := by
  induction cs with
  | nil => intro s; exact fun _ h => h
  | cons c cs ih =>
    intro s
    exact fun v hv => ih _ (fc_seen_mono env s c hv)

theorem run_seen_nodup (env : Env) (cs : List Candidate) :
    ∀ s, s.seen.Nodup → (runState env s cs).seen.Nodup := by
  induction cs with
  | nil => intro s h; exact h
  | cons c cs ih =>
    intro s h
    refine ih _ ?_
    by_cases hg : (filterCandidate env s c).1 = GOOD_CANDIDATE
    · rw [fc_seen_good env s c hg]; exact insertSeen_nodup h
    · rw [fc_seen_not_good env s c hg]; exact h

/-- Every value accepted during a run ends up in the final `seen_`. -/
theorem acc_sub_final (env : Env) (cs : List Candidate) :
    ∀ s v, v ∈ acceptedVals env s cs → v ∈ (runState env s cs).seen := by
  induction cs with
  | nil => intro s v h; cases h
  | cons c cs ih =>
    intro s v h
    rw [acceptedVals] at h
    split at h
    · next hg =>
      rcases List.mem_cons.mp h with h | h
      · subst h
        refine run_seen_mono env cs _ ?_
        rw [fc_seen_good env s c hg]
        exact mem_insertSeen_self _ _
      · exact ih _ _ h
    · exact ih _ _ h

/-- The final `seen_` of a run is, as a set, the starting `seen_` joined
with the accepted surface texts. -/
theorem run_seen_toFinset (env : Env) (cs : List Candidate) :
    ∀ s, ((runState env s cs).seen).toFinset =
      s.seen.toFinset ∪ (acceptedVals env s cs).toFinset := by
  induction cs with
  | nil => intro s; simp [runState, acceptedVals]
  | cons c cs ih =>
    intro s
    rw [runState, acceptedVals]
    by_cases hg : (filterCandidate env s c).1 = GOOD_CANDIDATE
    · rw [if_pos hg, ih, fc_seen_good env s c hg, insertSeen_toFinset,
        List.toFinset_cons, Finset.insert_union, Finset.union_insert]
    · rw [if_neg hg, ih, fc_seen_not_good env s c hg]

/-- A run over context-sensitive candidates never touches
`top_candidate_`. -/
theorem run_top_cs (env : Env) (cs : List Candidate)
    (hcs : ∀ x ∈ cs, x.context_sensitive = true) :
    ∀ s, (runState env s cs).top = s.top := by
  induction cs with
  | nil => intro s; rfl
  | cons c cs ih =>
    intro s
    rw [runState, fc_cs env s c (hcs c (List.mem_cons_self c cs))]
    exact ih (fun x hx => hcs x (List.mem_cons_of_mem c hx)) _

/-- Once `top_candidate_` is set and `seen_` is non-empty, no later call
reassigns it. -/
theorem top_stable_run (env : Env) (cs : List Candidate) :
    ∀ s t, s.top = some t → s.seen ≠ [] → (runState env s cs).top = some t := by
  induction cs with
  | nil => intro s t h1 _; exact h1
  | cons c cs ih =>
    intro s t h1 h2
    rw [runState]
    refine ih _ t ?_ ?_
    · rw [fc_top_eq]
      exact internal_top_keep env s c t h1 h2
    · rcases List.exists_mem_of_ne_nil s.seen h2 with ⟨v, hv⟩
      exact List.ne_nil_of_mem (fc_seen_mono env s c hv)

/-! ### The first call after reset -/

/-- Verdict chain self-comparison with empty `seen_`: accepted whenever
the structure-cost additions cannot overflow. -/
theorem classify_self_empty_good (env : Env) (c : Candidate)
    (hsc : c.structure_cost < 2147480195) :
    classifyVerdict env c [] c = GOOD_CANDIDATE := by
  simp only [classifyVerdict, List.length_nil]
  rw [if_neg (by omega : ¬0 + 1 ≥ 200)]
  rw [if_neg (List.not_mem_nil c.value)]
  by_cases h3 : c.nodes.length = 1
  · rw [if_pos h3]
  rw [if_neg h3]
  by_cases h4 : env.charsLen c.value = 1
  · rw [if_pos h4]
  rw [if_neg h4]
  by_cases h5 : 0 < 3 ∧ c.cost < wrap32 (max 100 c.cost + 2302) ∧
      c.structure_cost < 6907
  · rw [if_pos h5]
  rw [if_neg h5]
  rw [if_neg (fun h => absurd h.1 (by omega) :
    ¬(3 ≤ 0 ∧ 1 < c.nodes.length ∧
      (c.nodes.getD 0 ⟨0, 0⟩).lid = (c.nodes.getD 0 ⟨0, 0⟩).rid ∧
      env.isNounPfx (c.nodes.getD 0 ⟨0, 0⟩).lid = true))]
  rw [if_neg (fun h => absurd h.2 (by unfold wrap32; omega))]
  rw [if_neg (by unfold wrap32; omega :
    ¬wrap32 (max 100 c.structure_cost + 3453) < c.structure_cost)]

/-- `FilterCandidateInternal` on the reset state: a non-context-sensitive
candidate whose structure cost stays below `2^31 - 3453` becomes the top
candidate and is accepted. -/
theorem internal_reset (env : Env) (c : Candidate)
    (hcs : c.context_sensitive = false)
    (hsc : c.structure_cost < 2147480195) :
    filterCandidateInternal env resetState c = (GOOD_CANDIDATE, ⟨some c, []⟩) := by
  unfold filterCandidateInternal resetState
  rw [if_neg (by simp [hcs])]
  dsimp only
  rw [if_pos (Or.inl rfl)]
  rw [classify_self_empty_good env c hsc]

/-- `FilterCandidate` on the reset state for a non-context-sensitive
candidate with in-range structure cost: Accept, and the state records the
candidate as top and its surface text as seen. -/
theorem fc_reset (env : Env) (c : Candidate)
    (hcs : c.context_sensitive = false)
    (hsc : c.structure_cost < 2147480195) :
    filterCandidate env resetState c = (GOOD_CANDIDATE, ⟨some c, [c.value]⟩) := by
  unfold filterCandidate
  rw [internal_reset env c hcs hsc]
  simp [insertSeen]

/-! ### Reaching rule 9 -/

/-- With `top_candidate_` established and `seen_` non-empty, the internal
verdict is the verdict chain evaluated at that top candidate. -/
theorem internal_verdict_of_top (env : Env) (s : State) (c : Candidate)
    (t : Candidate) (h1 : s.top = some t) (h2 : s.seen ≠ [])
    (hcs : c.context_sensitive = false) :
    (filterCandidateInternal env s c).1 = classifyVerdict env t s.seen c := by
  have hlen : s.seen.length ≠ 0 := fun h => h2 (List.length_eq_zero.mp h)
  unfold filterCandidateInternal
  rw [if_neg (by simp [hcs])]
  dsimp only
  rw [h1]
  rw [if_neg (by simp [hlen])]
  rfl

/-- When rules 1-8 all fall through and the rule 9 test (as computed, in
wrap-around arithmetic) holds, the verdict is Reject below 15 accepted
candidates and Stop at or above. -/
theorem classify_rule9 (env : Env) (t : Candidate) (seen : List String)
    (c : Candidate)
    (hcap : seen.length + 1 < 200)
    (hdup : c.value ∉ seen)
    (hnodes : c.nodes.length ≠ 1)
    (hchars : env.charsLen c.value ≠ 1)
    (hr7 : ¬(seen.length < 3 ∧ c.cost < wrap32 (max 100 t.cost + 2302) ∧
      c.structure_cost < 6907))
    (hr8 : ¬(3 ≤ seen.length ∧ 1 < c.nodes.length ∧
      (c.nodes.getD 0 ⟨0, 0⟩).lid = (c.nodes.getD 0 ⟨0, 0⟩).rid ∧
      env.isNounPfx (c.nodes.getD 0 ⟨0, 0⟩).lid = true))
    (h9 : wrap32 (max 100 t.cost +
        (if c.lid = env.lastNameId ∨ c.lid = env.firstNameId then
          2147483647 else 6907)) < c.cost ∧
      wrap32 (max 100 t.structure_cost + 1151) < c.structure_cost) :
    classifyVerdict env t seen c =
      if seen.length < 15 then BAD_CANDIDATE else STOP_ENUMERATION := by
  simp only [classifyVerdict]
  rw [if_neg (by omega : ¬seen.length + 1 ≥ 200)]
  rw [if_neg hdup]
  rw [if_neg hnodes]
  rw [if_neg hchars]
  rw [if_neg hr7]
  rw [if_neg hr8]
  rw [if_pos h9]

/-! ### Claim C7 -/

/-- C7: a non-name candidate that reaches rule 9 with
`top_cost + 6907 < cost` and `top_structure_cost + 1151 < structure_cost`
is rejected when fewer than 15 candidates have been accepted, and stops
enumeration otherwise. -/
theorem c7_theorem (env : Env) (t : Candidate) (seen : List String)
    (c : Candidate)
    (hcs : c.context_sensitive = false)
    (hne : seen ≠ [])
    (hcap : seen.length + 1 < 200)
    (hdup : c.value ∉ seen)
    (hnodes : c.nodes.length ≠ 1)
    (hchars : env.charsLen c.value ≠ 1)
    (hr8 : ¬(3 ≤ seen.length ∧ 1 < c.nodes.length ∧
      (c.nodes.getD 0 ⟨0, 0⟩).lid = (c.nodes.getD 0 ⟨0, 0⟩).rid ∧
      env.isNounPfx (c.nodes.getD 0 ⟨0, 0⟩).lid = true))
    (hname : ¬(c.lid = env.lastNameId ∨ c.lid = env.firstNameId))
    (hcost : max 100 t.cost + 6907 < c.cost)
    (hsc : max 100 t.structure_cost + 1151 < c.structure_cost) :
    (filterCandidate env ⟨some t, seen⟩ c).1 =
      if seen.length < 15 then BAD_CANDIDATE else STOP_ENUMERATION := by
  rw [fc_verdict]
  rw [internal_verdict_of_top env ⟨some t, seen⟩ c t rfl hne hcs]
  refine classify_rule9 env t seen c hcap hdup hnodes hchars ?_ hr8 ?_
  · intro h
    have hw : wrap32 (max 100 t.cost + 2302) ≤ max 100 t.cost + 2302 :=
      wrap32_le (by omega)
    omega
  · constructor
    · rw [if_neg hname]
      exact lt_of_le_of_lt (wrap32_le (by omega)) (by omega)
    · exact lt_of_le_of_lt (wrap32_le (by omega)) hsc

/-- C7 witness: Scenario C (4 th candidate, `accepted_count = 3`,
`cost = 7908`, `structure_cost = 2152` against baseline 1000/1000) is
rejected, and Scenario D (same thresholds at `accepted_count = 15`) stops
enumeration. -/
theorem c7_witness :
    (filterCandidate env0
      ⟨some ⟨"t", 1000, 1000, 0, 0, [⟨1, 2⟩, ⟨3, 4⟩], false⟩, ["x", "y", "z"]⟩
      ⟨"ab", 7908, 2152, 7, 0, [⟨1, 2⟩, ⟨3, 4⟩], false⟩).1 = BAD_CANDIDATE ∧
    (filterCandidate env0
      ⟨some ⟨"t", 1000, 1000, 0, 0, [⟨1, 2⟩, ⟨3, 4⟩], false⟩,
        ["s1", "s2", "s3", "s4", "s5", "s6", "s7", "s8", "s9", "s10",
         "s11", "s12", "s13", "s14", "s15"]⟩
      ⟨"ab", 7908, 2152, 7, 0, [⟨1, 2⟩, ⟨3, 4⟩], false⟩).1 =
      STOP_ENUMERATION := by
  constructor
  · have h := c7_theorem env0 ⟨"t", 1000, 1000, 0, 0, [⟨1, 2⟩, ⟨3, 4⟩], false⟩
      ["x", "y", "z"] ⟨"ab", 7908, 2152, 7, 0, [⟨1, 2⟩, ⟨3, 4⟩], false⟩
      rfl (by decide) (by decide) (by decide) (by decide) (by decide)
      (by decide) (by decide) (by decide) (by decide)
    simpa using h
  · have h := c7_theorem env0 ⟨"t", 1000, 1000, 0, 0, [⟨1, 2⟩, ⟨3, 4⟩], false⟩
      ["s1", "s2", "s3", "s4", "s5", "s6", "s7", "s8", "s9", "s10",
       "s11", "s12", "s13", "s14", "s15"]
      ⟨"ab", 7908, 2152, 7, 0, [⟨1, 2⟩, ⟨3, 4⟩], false⟩
      rfl (by decide) (by decide) (by decide) (by decide) (by decide)
      (by decide) (by decide) (by decide) (by decide)
    simpa using h

/-! ### Claim C1 -/

/-- C1 counterexample: a candidate whose `lid` is the last-name id,
reaching rule 9 against baseline costs 1000/1000 with `cost = 2000` and
`structure_cost = 2500`, is rejected, although rule 10's structure test
`top_structure_cost + 3453 < structure_cost` does not hold — so rule 9's
cost clause did fire for a name candidate (the wrapped
`top_cost + INT_MAX` is negative), contradicting the claim that the cost
clause holds for no candidate cost and that such a candidate can only be
rejected by rule 10. -/
theorem c1_counterexample :
    (filterCandidate env0
      ⟨some ⟨"t", 1000, 1000, 0, 0, [⟨1, 2⟩, ⟨3, 4⟩], false⟩, ["x", "y", "z"]⟩
      ⟨"ab", 2000, 2500, 5, 0, [⟨1, 2⟩, ⟨3, 4⟩], false⟩).1 = BAD_CANDIDATE ∧
    ¬wrap32 (max 100 (1000 : Int) + 3453) < 2500 ∧
    wrap32 (max 100 (1000 : Int) + 2147483647) < 2000 := by
  refine ⟨by decide, by decide, by decide⟩

/-- C1 (amended): for a name-category candidate reaching rule 9, the
32-bit sum `top_cost + INT_MAX` wraps to a negative value, so rule 9's
cost clause holds for every non-negative candidate cost; hence whenever
the structure clause `top_structure_cost + 1151 < structure_cost` holds
(as computed), the candidate is rejected by rule 9 below 15 accepted
candidates and stops enumeration at 15 or more — it is not exempt from
rule 9 and rule 10 is not reached. -/
theorem c1_theorem (env : Env) (t : Candidate) (seen : List String)
    (c : Candidate)
    (hcs : c.context_sensitive = false)
    (hne : seen ≠ [])
    (hcap : seen.length + 1 < 200)
    (hdup : c.value ∉ seen)
    (hnodes : c.nodes.length ≠ 1)
    (hchars : env.charsLen c.value ≠ 1)
    (hr7 : ¬(seen.length < 3 ∧ c.cost < wrap32 (max 100 t.cost + 2302) ∧
      c.structure_cost < 6907))
    (hr8 : ¬(3 ≤ seen.length ∧ 1 < c.nodes.length ∧
      (c.nodes.getD 0 ⟨0, 0⟩).lid = (c.nodes.getD 0 ⟨0, 0⟩).rid ∧
      env.isNounPfx (c.nodes.getD 0 ⟨0, 0⟩).lid = true))
    (hname : c.lid = env.lastNameId ∨ c.lid = env.firstNameId)
    (htop : t.cost ≤ 2147483647)
    (hc0 : 0 ≤ c.cost)
    (hsc : wrap32 (max 100 t.structure_cost + 1151) < c.structure_cost) :
    (filterCandidate env ⟨some t, seen⟩ c).1 =
      if seen.length < 15 then BAD_CANDIDATE else STOP_ENUMERATION := by
  rw [fc_verdict]
  rw [internal_verdict_of_top env ⟨some t, seen⟩ c t rfl hne hcs]
  refine classify_rule9 env t seen c hcap hdup hnodes hchars hr7 hr8 ?_
  constructor
  · rw [if_pos hname]
    have hw := wrap32_sub_of_high (x := max 100 t.cost + 2147483647)
      (by omega) (by omega)
    omega
  · exact hsc

/-- C1 witness: a last-name candidate with cost 3000 and structure cost
2300 against baseline 1000/1000 and three accepted candidates is rejected
by rule 9. -/
theorem c1_witness :
    (filterCandidate env0
      ⟨some ⟨"t", 1000, 1000, 0, 0, [⟨1, 2⟩, ⟨3, 4⟩], false⟩, ["x", "y", "z"]⟩
      ⟨"cd", 3000, 2300, 5, 0, [⟨1, 2⟩, ⟨3, 4⟩], false⟩).1 = BAD_CANDIDATE := by
  have h := c1_theorem env0 ⟨"t", 1000, 1000, 0, 0, [⟨1, 2⟩, ⟨3, 4⟩], false⟩
    ["x", "y", "z"] ⟨"cd", 3000, 2300, 5, 0, [⟨1, 2⟩, ⟨3, 4⟩], false⟩
    rfl (by decide) (by decide) (by decide) (by decide) (by decide)
    (by decide) (by decide) (by decide) (by decide) (by decide) (by decide)
  simpa using h

/-! ### Claim C2 -/

set_option maxRecDepth 100000 in
/-- C2 counterexample: 200 context-sensitive candidates with the same
surface text are all accepted (200 Accept verdicts), yet the next
candidate — presented when accepted_count + 1 is at least 200 — is
accepted rather than stopped, because only `seen_.size()` (here 1) feeds
the cap and context-sensitive candidates bypass it besides. -/
theorem c2_counterexample :
    (acceptedVals env0 resetState
      (List.replicate 200 ⟨"a", 0, 0, 0, 0, [⟨1, 2⟩], true⟩)).length = 200 ∧
    (filterCandidate env0
      (runState env0 resetState
        (List.replicate 200 ⟨"a", 0, 0, 0, 0, [⟨1, 2⟩], true⟩))
      ⟨"b", 0, 0, 0, 0, [⟨1, 2⟩], false⟩).1 = GOOD_CANDIDATE := by
  refine ⟨by decide, by decide⟩

/-- C2 (amended): the enumeration cap is measured by `seen_.size()` (the
number of distinct accepted surface texts), and bypassed by
context-sensitive candidates: every non-context-sensitive candidate
presented when `seen_.size() + 1 ≥ 200` gets Stop regardless of cost. -/
theorem c2_theorem (env : Env) (s : State) (c : Candidate)
    (hcs : c.context_sensitive = false)
    (hcap : 200 ≤ s.seen.length + 1) :
    (filterCandidate env s c).1 = STOP_ENUMERATION := by
  rw [fc_verdict]
  unfold filterCandidateInternal
  rw [if_neg (by simp [hcs])]
  dsimp only
  simp only [classifyVerdict]
  rw [if_pos (by omega : s.seen.length + 1 ≥ 200)]

set_option maxRecDepth 100000 in
/-- C2 witness: with 199 seen values, a non-context-sensitive candidate
is stopped. -/
theorem c2_witness :
    (filterCandidate env0 ⟨none, List.replicate 199 "x"⟩
      ⟨"b", 0, 0, 0, 0, [⟨1, 2⟩], false⟩).1 = STOP_ENUMERATION :=
  c2_theorem env0 ⟨none, List.replicate 199 "x"⟩
    ⟨"b", 0, 0, 0, 0, [⟨1, 2⟩], false⟩ rfl (by simp)

/-! ### Claims C3 and C4 -/

/-- Any call at or above the enumeration cap stops (non-context-sensitive
candidates only reach the cap check). -/
theorem fc_stop_of_cap (env : Env) (s : State) (c : Candidate)
    (hcs : c.context_sensitive = false)
    (hcap : 200 ≤ s.seen.length + 1) :
    (filterCandidate env s c).1 = STOP_ENUMERATION := by
  rw [fc_verdict]
  unfold filterCandidateInternal
  rw [if_neg (by simp [hcs])]
  dsimp only
  simp only [classifyVerdict]
  rw [if_pos (by omega : s.seen.length + 1 ≥ 200)]

/-- Below the cap, a non-context-sensitive candidate whose surface text
is already in `seen_` is rejected. -/
theorem fc_bad_of_dup (env : Env) (s : State) (c : Candidate)
    (hcs : c.context_sensitive = false)
    (hcap : s.seen.length + 1 < 200)
    (hdup : c.value ∈ s.seen) :
    (filterCandidate env s c).1 = BAD_CANDIDATE := by
  rw [fc_verdict]
  unfold filterCandidateInternal
  rw [if_neg (by simp [hcs])]
  dsimp only
  simp only [classifyVerdict]
  rw [if_neg (by omega : ¬s.seen.length + 1 ≥ 200)]
  rw [if_pos hdup]

/-- C3 counterexample: a context-sensitive candidate with surface text
"a" is accepted; feeding the same candidate again — its surface text now
equal to that of a previously accepted candidate — returns Accept, not
Reject, because the context-sensitive early return precedes the duplicate
check. -/
theorem c3_counterexample :
    "a" ∈ acceptedVals env0 resetState
      [⟨"a", 0, 0, 0, 0, [⟨1, 2⟩], true⟩] ∧
    (filterCandidate env0
      (runState env0 resetState [⟨"a", 0, 0, 0, 0, [⟨1, 2⟩], true⟩])
      ⟨"a", 0, 0, 0, 0, [⟨1, 2⟩], true⟩).1 = GOOD_CANDIDATE := by
  refine ⟨by decide, by decide⟩

/-- C3 (amended): a non-context-sensitive candidate whose surface text
equals that of any previously accepted candidate in the same request is
never accepted: it is rejected, except that at the enumeration cap the
verdict is Stop.  (Context-sensitive candidates bypass the duplicate
check.) -/
theorem c3_theorem (env : Env) (cs1 : List Candidate) (c : Candidate)
    (hcs : c.context_sensitive = false)
    (hacc : c.value ∈ acceptedVals env resetState cs1) :
    (filterCandidate env (runState env resetState cs1) c).1 =
      if 200 ≤ (runState env resetState cs1).seen.length + 1 then
        STOP_ENUMERATION
      else BAD_CANDIDATE := by
  have hmem : c.value ∈ (runState env resetState cs1).seen :=
    acc_sub_final env cs1 resetState c.value hacc
  by_cases hcap : 200 ≤ (runState env resetState cs1).seen.length + 1
  · rw [if_pos hcap]
    exact fc_stop_of_cap env _ c hcs hcap
  · rw [if_neg hcap]
    exact fc_bad_of_dup env _ c hcs (by omega) hmem

/-- C3 witness: after accepting a candidate with surface text "a", a
second non-context-sensitive candidate with surface text "a" is
rejected. -/
theorem c3_witness :
    (filterCandidate env0
      (runState env0 resetState [⟨"a", 0, 0, 0, 0, [⟨1, 2⟩], false⟩])
      ⟨"a", 5, 5, 0, 0, [⟨1, 2⟩], false⟩).1 = BAD_CANDIDATE :=
  (c3_theorem env0 [⟨"a", 0, 0, 0, 0, [⟨1, 2⟩], false⟩]
    ⟨"a", 5, 5, 0, 0, [⟨1, 2⟩], false⟩ rfl (by decide)).trans (by decide)

/-- C4 counterexample: a single-character candidate whose surface text is
already in `seen_` is rejected, not accepted — the duplicate check (and
the enumeration cap) precede the single-character rule. -/
theorem c4_counterexample :
    env0.charsLen "a" = 1 ∧
    (filterCandidate env0 ⟨none, ["a"]⟩
      ⟨"a", 0, 0, 0, 0, [⟨1, 2⟩], false⟩).1 = BAD_CANDIDATE := by
  refine ⟨by decide, by decide⟩

/-- C4 (amended): a candidate whose surface text has character length 1
is accepted however high its cost or structure cost, provided its surface
text is not already in `seen_` and the enumeration cap has not been
reached (those two earlier rules still apply). -/
theorem c4_theorem (env : Env) (s : State) (c : Candidate)
    (hchars : env.charsLen c.value = 1)
    (hcap : s.seen.length + 1 < 200)
    (hdup : c.value ∉ s.seen) :
    (filterCandidate env s c).1 = GOOD_CANDIDATE := by
  by_cases hcs : c.context_sensitive
  · rw [fc_cs env s c hcs]
  · rw [fc_verdict]
    unfold filterCandidateInternal
    rw [if_neg hcs]
    dsimp only
    simp only [classifyVerdict]
    rw [if_neg (by omega : ¬s.seen.length + 1 ≥ 200)]
    rw [if_neg hdup]
    by_cases h3 : c.nodes.length = 1
    · rw [if_pos h3]
    · rw [if_neg h3]
      rw [if_pos hchars]

/-- C4 witness: a fresh single-character candidate with huge costs is
accepted. -/
theorem c4_witness :
    (filterCandidate env0 ⟨none, ["b"]⟩
      ⟨"a", 2147483647, 2147483647, 0, 0, [⟨1, 2⟩, ⟨3, 4⟩], false⟩).1 =
      GOOD_CANDIDATE :=
  c4_theorem env0 ⟨none, ["b"]⟩
    ⟨"a", 2147483647, 2147483647, 0, 0, [⟨1, 2⟩, ⟨3, 4⟩], false⟩
    (by decide) (by decide) (by decide)

/-! ### Claim C5 -/

/-- C5 counterexample: the first non-context-sensitive candidate (with
`cost = structure_cost = INT_MAX`, so rule 9's wrapped additions fire on
the first call) is rejected, `seen_` stays empty, and the next candidate
reassigns `top_candidate_` — the baseline does not remain the first
non-context-sensitive candidate fed. -/
theorem c5_counterexample :
    (runState env0 resetState
      [⟨"ab", 2147483647, 2147483647, 0, 0, [⟨1, 2⟩, ⟨3, 4⟩], false⟩,
       ⟨"cd", 0, 0, 0, 0, [⟨1, 2⟩], false⟩]).top =
      some ⟨"cd", 0, 0, 0, 0, [⟨1, 2⟩], false⟩ ∧
    (⟨"cd", 0, 0, 0, 0, [⟨1, 2⟩], false⟩ : Candidate) ≠
      ⟨"ab", 2147483647, 2147483647, 0, 0, [⟨1, 2⟩, ⟨3, 4⟩], false⟩ := by
  refine ⟨by decide, by decide⟩

/-- A call never makes a context-sensitive candidate the top candidate:
if every candidate `top_candidate_` could hold before the call is
non-context-sensitive, the same holds after it. -/
theorem fc_top_non_cs (env : Env) (s : State) (c : Candidate)
    (h : ∀ t, s.top = some t → t.context_sensitive = false) :
    ∀ t, (filterCandidate env s c).2.top = some t →
      t.context_sensitive = false := by
  intro t ht
  rw [fc_top_eq] at ht
  unfold filterCandidateInternal at ht
  by_cases hcs : c.context_sensitive
  · rw [if_pos hcs] at ht
    exact h t ht
  · rw [if_neg hcs] at ht
    dsimp only at ht
    by_cases hcond : s.top = none ∨ s.seen.length = 0
    · rw [if_pos hcond] at ht
      obtain rfl := Option.some.inj ht
      exact Bool.eq_false_iff.mpr hcs
    · rw [if_neg hcond] at ht
      push_neg at hcond
      cases hs : s.top with
      | none => exact absurd hs hcond.1
      | some t0 =>
        rw [hs] at ht
        simp only [Option.getD_some] at ht
        obtain rfl := Option.some.inj ht
        exact h t0 hs

/-- Over any run from the reset state, `top_candidate_` only ever holds
a non-context-sensitive candidate. -/
theorem run_top_non_cs (env : Env) (cs : List Candidate) :
    ∀ t, (runState env resetState cs).top = some t →
      t.context_sensitive = false := by
  have main : ∀ (l : List Candidate) (s : State),
      (∀ t, s.top = some t → t.context_sensitive = false) →
      ∀ t, (runState env s l).top = some t → t.context_sensitive = false := by
    intro l
    induction l with
    | nil => intro s h; exact h
    | cons c l ih => intro s h; exact ih _ (fc_top_non_cs env s c h)
  exact main cs resetState (fun t ht => by simp [resetState] at ht)

/-- C5 (amended): if every candidate before the first
non-context-sensitive candidate is context-sensitive and the first
non-context-sensitive candidate's structure cost is below `2^31 - 3453`
(so the 32-bit threshold additions cannot wrap on the first comparison),
then that candidate becomes `top_candidate_` and is never reassigned for
the remainder of the request, whether or not its own verdict is Accept;
moreover, over any run from reset, `top_candidate_` is only ever set
from a non-context-sensitive candidate. -/
theorem c5_theorem (env : Env) (cs1 : List Candidate) (c : Candidate)
    (cs2 : List Candidate)
    (h1 : ∀ x ∈ cs1, x.context_sensitive = true)
    (h2 : c.context_sensitive = false)
    (hsc : c.structure_cost < 2147480195) :
    (runState env resetState (cs1 ++ c :: cs2)).top = some c ∧
    ∀ (cs : List Candidate) (t : Candidate),
      (runState env resetState cs).top = some t →
        t.context_sensitive = false := by
  constructor
  · rw [runState_append]
    have htop1 : (runState env resetState cs1).top = none :=
      (run_top_cs env cs1 h1 resetState).trans rfl
    rw [runState]
    apply top_stable_run env cs2 _ c
    · rw [fc_top_eq]
      exact internal_top_set env _ c htop1 h2
    · cases cs1 with
      | nil =>
        show (filterCandidate env (runState env resetState []) c).2.seen ≠ []
        rw [runState, fc_reset env c h2 hsc]
        simp
      | cons x xs =>
        have hx : x.value ∈ (runState env resetState (x :: xs)).seen := by
          rw [runState]
          apply run_seen_mono
          rw [fc_cs env resetState x (h1 x (List.mem_cons_self x xs))]
          show x.value ∈ insertSeen x.value resetState.seen
          exact mem_insertSeen_self _ _
        exact List.ne_nil_of_mem (fc_seen_mono env _ c hx)
  · exact run_top_non_cs env

/-- C5 witness: after one context-sensitive candidate, the first
non-context-sensitive candidate becomes and stays the top candidate
through a subsequent call, and the top candidate of that run is
non-context-sensitive. -/
theorem c5_witness :
    (runState env0 resetState
      [⟨"e", 9, 9, 0, 0, [⟨1, 2⟩], true⟩,
       ⟨"a", 10, 10, 0, 0, [⟨1, 2⟩, ⟨3, 4⟩], false⟩,
       ⟨"b", 0, 0, 0, 0, [⟨1, 2⟩], false⟩]).top =
      some ⟨"a", 10, 10, 0, 0, [⟨1, 2⟩, ⟨3, 4⟩], false⟩ ∧
    (⟨"a", 10, 10, 0, 0, [⟨1, 2⟩, ⟨3, 4⟩], false⟩ :
      Candidate).context_sensitive = false :=
  have h := c5_theorem env0 [⟨"e", 9, 9, 0, 0, [⟨1, 2⟩], true⟩]
    ⟨"a", 10, 10, 0, 0, [⟨1, 2⟩, ⟨3, 4⟩], false⟩
    [⟨"b", 0, 0, 0, 0, [⟨1, 2⟩], false⟩]
    (by decide) rfl (by decide)
  ⟨h.1, h.2 _ _ h.1⟩

/-! ### Claim C6 -/

/-- C6 counterexample: feeding the same context-sensitive candidate
twice yields two Accept verdicts but a single entry in `seen_`, so the
number of accepting calls does not equal the cardinality of
`seen_values`. -/
theorem c6_counterexample :
    (acceptedVals env0 resetState
      [⟨"a", 0, 0, 0, 0, [⟨1, 2⟩], true⟩,
       ⟨"a", 0, 0, 0, 0, [⟨1, 2⟩], true⟩]).length = 2 ∧
    (runState env0 resetState
      [⟨"a", 0, 0, 0, 0, [⟨1, 2⟩], true⟩,
       ⟨"a", 0, 0, 0, 0, [⟨1, 2⟩], true⟩]).seen.length = 1 := by
  refine ⟨by decide, by decide⟩

/-- C6 (amended): at every point of a request, the cardinality of
`seen_values` is at most the number of Accept-returning classify calls
since the reset, with equality whenever the accepted surface texts are
pairwise distinct (the code keeps no separate counter; repeated
context-sensitive acceptances of the same text make the Accept count
strictly larger). -/
theorem c6_theorem (env : Env) (cs : List Candidate) :
    (runState env resetState cs).seen.length ≤
      (acceptedVals env resetState cs).length ∧
    ((acceptedVals env resetState cs).Nodup →
      (runState env resetState cs).seen.length =
        (acceptedVals env resetState cs).length) := by
  have hnd : (runState env resetState cs).seen.Nodup :=
    run_seen_nodup env cs resetState (by simp [resetState])
  have hfin : ((runState env resetState cs).seen).toFinset =
      (acceptedVals env resetState cs).toFinset := by
    rw [run_seen_toFinset]
    simp [resetState]
  have hcard : (runState env resetState cs).seen.length =
      (acceptedVals env resetState cs).toFinset.card := by
    rw [← hfin]
    exact (List.toFinset_card_of_nodup hnd).symm
  constructor
  · rw [hcard]
    apply List.toFinset_card_le
  · intro h
    rw [hcard]
    exact List.toFinset_card_of_nodup h

/-- C6 witness: a run accepting two distinct surface texts has exactly
two seen values. -/
theorem c6_witness :
    (acceptedVals env0 resetState
      [⟨"a", 0, 0, 0, 0, [⟨1, 2⟩], false⟩,
       ⟨"b", 0, 0, 0, 0, [⟨1, 2⟩], false⟩]).Nodup ∧
    (runState env0 resetState
      [⟨"a", 0, 0, 0, 0, [⟨1, 2⟩], false⟩,
       ⟨"b", 0, 0, 0, 0, [⟨1, 2⟩], false⟩]).seen.length =
      (acceptedVals env0 resetState
        [⟨"a", 0, 0, 0, 0, [⟨1, 2⟩], false⟩,
         ⟨"b", 0, 0, 0, 0, [⟨1, 2⟩], false⟩]).length :=
  ⟨by decide,
    (c6_theorem env0
      [⟨"a", 0, 0, 0, 0, [⟨1, 2⟩], false⟩,
       ⟨"b", 0, 0, 0, 0, [⟨1, 2⟩], false⟩]).2 (by decide)⟩

/-! ### Claims C8 and C9 -/

/-- C8: on Accept the only change to `seen_` is the insertion of the
candidate's surface text (and the recorded count grows by one when the
text is new); on Reject or Stop, `seen_` is unchanged.  All state lives
in `seen_` and `top_candidate_`; the candidate itself is a read-only
input of the model. -/
theorem c8_theorem (env : Env) (s : State) (c : Candidate) :
    ((filterCandidate env s c).1 = GOOD_CANDIDATE →
      (filterCandidate env s c).2.seen = insertSeen c.value s.seen) ∧
    ((filterCandidate env s c).1 ≠ GOOD_CANDIDATE →
      (filterCandidate env s c).2.seen = s.seen) ∧
    ((filterCandidate env s c).1 = GOOD_CANDIDATE → c.value ∉ s.seen →
      (filterCandidate env s c).2.seen.length = s.seen.length + 1) ∧
    ((filterCandidate env s c).1 ≠ GOOD_CANDIDATE →
      (filterCandidate env s c).2.seen.length = s.seen.length) := by
  refine ⟨fc_seen_good env s c, fc_seen_not_good env s c, ?_, ?_⟩
  · intro hg hd
    rw [fc_seen_good env s c hg]
    unfold insertSeen
    rw [if_neg hd]
    rfl
  · intro hg
    rw [fc_seen_not_good env s c hg]

/-- C8 witness: accepting a fresh candidate inserts exactly its surface
text. -/
theorem c8_witness :
    (filterCandidate env0 resetState
      ⟨"a", 0, 0, 0, 0, [⟨1, 2⟩], false⟩).2.seen =
      insertSeen "a" resetState.seen :=
  (c8_theorem env0 resetState ⟨"a", 0, 0, 0, 0, [⟨1, 2⟩], false⟩).1 (by decide)

/-- C9 counterexample: on the very first call after reset, a candidate
with `cost = structure_cost = INT_MAX` (two nodes, two characters) is
rejected, because the rule 9 threshold additions wrap around in 32-bit
arithmetic. -/
theorem c9_counterexample :
    (filterCandidate env0 resetState
      ⟨"ab", 2147483647, 2147483647, 0, 0, [⟨1, 2⟩, ⟨3, 4⟩], false⟩).1 =
      BAD_CANDIDATE := by decide

/-- C9 (amended): immediately after reset, the first classify call
returns Accept for every candidate whose structure cost is below
`2^31 - 3453` (so the structure-cost threshold additions cannot wrap),
whatever its cost, lid, number of elementary units, or context-sensitive
flag. -/
theorem c9_theorem (env : Env) (c : Candidate)
    (hsc : c.structure_cost < 2147480195) :
    (filterCandidate env resetState c).1 = GOOD_CANDIDATE := by
  cases hb : c.context_sensitive
  · rw [fc_verdict, internal_reset env c hb hsc]
  · rw [fc_cs env resetState c hb]

/-- C9 witness: the first call accepts a fresh candidate even with cost
`INT_MAX`. -/
theorem c9_witness :
    (filterCandidate env0 resetState
      ⟨"ab", 2147483647, 0, 0, 0, [⟨1, 2⟩, ⟨3, 4⟩], false⟩).1 =
      GOOD_CANDIDATE :=
  c9_theorem env0 ⟨"ab", 2147483647, 0, 0, 0, [⟨1, 2⟩, ⟨3, 4⟩], false⟩
    (by decide)

/-! ### Claim C10 -/

/-- The checked verdict chain never fails: the single element access into
`nodes` sits behind the `length > 1` guard, so it is always in bounds. -/
theorem classify_checked (env : Env) (t : Candidate) (seen : List String)
    (c : Candidate) :
    classifyVerdictChecked env t seen c =
      some (classifyVerdict env t seen c) := by
  unfold classifyVerdictChecked classifyVerdict
  dsimp only
  by_cases h1 : seen.length + 1 ≥ 200
  · simp only [if_pos h1]
  simp only [if_neg h1]
  by_cases h2 : c.value ∈ seen
  · simp only [if_pos h2]
  simp only [if_neg h2]
  by_cases h3 : c.nodes.length = 1
  · simp only [if_pos h3]
  simp only [if_neg h3]
  by_cases h4 : env.charsLen c.value = 1
  · simp only [if_pos h4]
  simp only [if_neg h4]
  by_cases h5 : seen.length < 3 ∧ c.cost < wrap32 (max 100 t.cost + 2302) ∧
      c.structure_cost < 6907
  · simp only [if_pos h5]
  simp only [if_neg h5]
  by_cases h8 : 3 ≤ seen.length ∧ 1 < c.nodes.length ∧
      (c.nodes.getD 0 ⟨0, 0⟩).lid = (c.nodes.getD 0 ⟨0, 0⟩).rid ∧
      env.isNounPfx (c.nodes.getD 0 ⟨0, 0⟩).lid = true
  · simp only [if_pos h8]
    rw [if_pos ⟨h8.1, h8.2.1⟩]
    cases hn : c.nodes with
    | nil =>
      rw [hn] at h8
      exact absurd h8.2.1 (by simp)
    | cons n0 rest =>
      rw [hn] at h8
      simp only [List.getD_cons_zero] at h8
      simp only [List.getElem?_cons_zero]
      rw [if_pos ⟨h8.2.2.1, h8.2.2.2⟩]
  · simp only [if_neg h8]
    by_cases h6 : 3 ≤ seen.length ∧ 1 < c.nodes.length
    · rw [if_pos h6]
      cases hn : c.nodes with
      | nil =>
        rw [hn] at h6
        exact absurd h6.2 (by simp)
      | cons n0 rest =>
        simp only [List.getElem?_cons_zero]
        rw [if_neg (fun hcon => h8
          ⟨h6.1, h6.2, by rw [hn]; simpa using hcon.1,
            by rw [hn]; simpa using hcon.2⟩ :
          ¬(n0.lid = n0.rid ∧ env.isNounPfx n0.lid = true))]
        split_ifs <;> rfl
    · rw [if_neg h6]
      split_ifs <;> rfl

/-- C10: classify never reads `nodes` out of bounds — the checked
variant, in which an out-of-bounds access would surface as `none`,
coincides with the filter on every input, including candidates whose
`nodes` sequence is empty. -/
theorem c10_theorem (env : Env) (s : State) (c : Candidate) :
    filterCandidateInternalChecked env s c =
      some (filterCandidateInternal env s c) := by
  unfold filterCandidateInternalChecked filterCandidateInternal
  split
  · rfl
  · dsimp only
    rw [classify_checked]
    rfl
